import Mathlib

/-!
Shallow embedding of the profile store synchronization engine of
src/LGHUB_Profile_Editor_V2.py (the version all claims cite).

Modelling conventions:
- Python strings are sequences of code points, modelled as `List Char`
  (named `PyStr`).  The ASCII fragments of `str.strip`, `str.lower`,
  regular expression classes and code point comparison are modelled
  directly; the repository only ever manipulates such data in the
  claimed properties.
- Python raised exceptions (AttributeError, KeyError, TypeError) are
  modelled as `Except Unit`.
- The decoded JSON tree of a storage row is the inductive `Json`;
  Python dicts keep insertion order, so objects are association lists,
  item assignment replaces in place or appends at the end.
- sqlite access, image decoding and filesystem writes are external
  effects; they enter the model as explicit parameters (`parse`,
  `serialize`, `decoded`, `writeOk`) and as a list of performed write
  events.
-/

/-- Python strings modelled as code point sequences. -/
abbrev PyStr := List Char

/-- Embeds a Lean string literal as a `PyStr`. -/
def pys (s : String) : PyStr := s.data

/-- Whitespace class of `str.strip` (ASCII fragment). -/
def isPySpace (c : Char) : Bool :=
  c = ' ' || c = '\t' || c = '\n' || c = '\r' || c = '\x0b' || c = '\x0c'

/-- Python `str.strip()`: drop whitespace from both ends. -/
def pyStrip (s : PyStr) : PyStr :=
  ((s.dropWhile isPySpace).reverse.dropWhile isPySpace).reverse

/-- Lowercasing of one character, the ASCII fragment of `str.lower`. -/
def charLower (c : Char) : Char :=
  if 'A' ≤ c ∧ c ≤ 'Z' then Char.ofNat (c.toNat + 32) else c

/-- Python `str.lower()` (ASCII fragment). -/
def pyLower (s : PyStr) : PyStr := s.map charLower

/-- Python comparison `a < b` on strings: lexicographic by code point. -/
def pyStrLt : PyStr → PyStr → Bool
  | _, [] => false
  | [], _ :: _ => true
  | a :: as, b :: bs =>
    if a.toNat < b.toNat then true
    else if b.toNat < a.toNat then false
    else pyStrLt as bs

/-- Python `a <= b` on strings, expressed through `<` as in a total order. -/
def pyStrLe (a b : PyStr) : Bool := !(pyStrLt b a)

/-- Character class `\w` of the `re` module (ASCII fragment):
letters, digits and the underscore. -/
def isWordChar (c : Char) : Bool := c.isAlpha || c.isDigit || c = '_'

/-- Characters kept by `re.sub(r'[^\w\s-]', '', s)`: word characters,
whitespace and the hyphen survive, everything else is deleted. -/
def keepSanitized (c : Char) : Bool := isWordChar c || isPySpace c || c = '-'

/-- JSON value as produced by `json.loads`.  Python dicts preserve
insertion order, hence objects are association lists. -/
inductive Json where
  | null
  | bool (b : Bool)
  | num (n : Int)
  | str (s : PyStr)
  | arr (xs : List Json)
  | obj (kvs : List (PyStr × Json))

/-- Decidable structural equality on `Json`, mirroring Python `==` on
parsed JSON data. -/
def Json.deq : (a b : Json) → Decidable (a = b)
  | .null, .null => isTrue rfl
  | .bool a, .bool b =>
    match decEq a b with
    | isTrue h => isTrue (by rw [h])
    | isFalse h => isFalse (fun e => h (Json.bool.inj e))
  | .num a, .num b =>
    match decEq a b with
    | isTrue h => isTrue (by rw [h])
    | isFalse h => isFalse (fun e => h (Json.num.inj e))
  | .str a, .str b =>
    match decEq a b with
    | isTrue h => isTrue (by rw [h])
    | isFalse h => isFalse (fun e => h (Json.str.inj e))
  | .arr xs, .arr ys =>
    match deqArr xs ys with
    | isTrue h => isTrue (by rw [h])
    | isFalse h => isFalse (fun e => h (Json.arr.inj e))
  | .obj xs, .obj ys =>
    match deqObj xs ys with
    | isTrue h => isTrue (by rw [h])
    | isFalse h => isFalse (fun e => h (Json.obj.inj e))
  | .null, .bool _ => isFalse (fun h => Json.noConfusion h)
  | .null, .num _ => isFalse (fun h => Json.noConfusion h)
  | .null, .str _ => isFalse (fun h => Json.noConfusion h)
  | .null, .arr _ => isFalse (fun h => Json.noConfusion h)
  | .null, .obj _ => isFalse (fun h => Json.noConfusion h)
  | .bool _, .null => isFalse (fun h => Json.noConfusion h)
  | .bool _, .num _ => isFalse (fun h => Json.noConfusion h)
  | .bool _, .str _ => isFalse (fun h => Json.noConfusion h)
  | .bool _, .arr _ => isFalse (fun h => Json.noConfusion h)
  | .bool _, .obj _ => isFalse (fun h => Json.noConfusion h)
  | .num _, .null => isFalse (fun h => Json.noConfusion h)
  | .num _, .bool _ => isFalse (fun h => Json.noConfusion h)
  | .num _, .str _ => isFalse (fun h => Json.noConfusion h)
  | .num _, .arr _ => isFalse (fun h => Json.noConfusion h)
  | .num _, .obj _ => isFalse (fun h => Json.noConfusion h)
  | .str _, .null => isFalse (fun h => Json.noConfusion h)
  | .str _, .bool _ => isFalse (fun h => Json.noConfusion h)
  | .str _, .num _ => isFalse (fun h => Json.noConfusion h)
  | .str _, .arr _ => isFalse (fun h => Json.noConfusion h)
  | .str _, .obj _ => isFalse (fun h => Json.noConfusion h)
  | .arr _, .null => isFalse (fun h => Json.noConfusion h)
  | .arr _, .bool _ => isFalse (fun h => Json.noConfusion h)
  | .arr _, .num _ => isFalse (fun h => Json.noConfusion h)
  | .arr _, .str _ => isFalse (fun h => Json.noConfusion h)
  | .arr _, .obj _ => isFalse (fun h => Json.noConfusion h)
  | .obj _, .null => isFalse (fun h => Json.noConfusion h)
  | .obj _, .bool _ => isFalse (fun h => Json.noConfusion h)
  | .obj _, .num _ => isFalse (fun h => Json.noConfusion h)
  | .obj _, .str _ => isFalse (fun h => Json.noConfusion h)
  | .obj _, .arr _ => isFalse (fun h => Json.noConfusion h)
where
  deqArr : (xs ys : List Json) → Decidable (xs = ys)
    | [], [] => isTrue rfl
    | [], _ :: _ => isFalse (fun h => List.noConfusion h)
    | _ :: _, [] => isFalse (fun h => List.noConfusion h)
    | x :: xs, y :: ys =>
      match Json.deq x y with
      | isTrue h1 =>
        match deqArr xs ys with
        | isTrue h2 => isTrue (by rw [h1, h2])
        | isFalse h2 => isFalse (fun e => h2 (List.cons.inj e).2)
      | isFalse h1 => isFalse (fun e => h1 (List.cons.inj e).1)
  deqObj : (xs ys : List (PyStr × Json)) → Decidable (xs = ys)
    | [], [] => isTrue rfl
    | [], _ :: _ => isFalse (fun h => List.noConfusion h)
    | _ :: _, [] => isFalse (fun h => List.noConfusion h)
    | (k, v) :: xs, (k2, v2) :: ys =>
      match decEq k k2 with
      | isTrue hk =>
        match Json.deq v v2 with
        | isTrue h1 =>
          match deqObj xs ys with
          | isTrue h2 => isTrue (by rw [hk, h1, h2])
          | isFalse h2 => isFalse (fun e => h2 (List.cons.inj e).2)
        | isFalse h1 =>
          isFalse (fun e => h1 (congrArg Prod.snd (List.cons.inj e).1))
      | isFalse hk =>
        isFalse (fun e => hk (congrArg Prod.fst (List.cons.inj e).1))

instance : DecidableEq Json := Json.deq

deriving instance DecidableEq for Except

/-- Python dict lookup `d.get(key)` on an ordered association list
(`none` when the key is absent; Python dict keys are unique, the first
binding is the binding). -/
def lookupKV : List (PyStr × Json) → PyStr → Option Json
  | [], _ => none
  | (k, v) :: rest, key => if k = key then some v else lookupKV rest key

/-- Python `d.get(key, default)`. -/
def getKV (kvs : List (PyStr × Json)) (key : PyStr) (dflt : Json) : Json :=
  match lookupKV kvs key with
  | some v => v
  | none => dflt

/-- Python item assignment `d[key] = v`: replaces the value in place when
the key exists (keeping its position), otherwise appends the new binding
at the end (dict insertion order). -/
def setKV : List (PyStr × Json) → PyStr → Json → List (PyStr × Json)
  | [], key, v => [(key, v)]
  | (k, w) :: rest, key, v =>
    if k = key then (key, v) :: rest else (k, w) :: setKV rest key v

/-- Python `rfind`-style search: index of the last character satisfying
the predicate, `none` when there is none. -/
def rfindIdx (p : Char → Bool) : PyStr → Option Nat
  | [] => none
  | c :: cs =>
    match rfindIdx p cs with
    | some i => some (i + 1)
    | none => if p c then some 0 else none

/-- The `os.path.splitext` of the Windows path module used by the
application (`sep` is the backslash, `altsep` the slash): split at the
last dot that lies after the last separator, unless every character
between the separator and that dot is a dot (leading dots of a basename
are part of the root, not an extension). -/
def os_path_splitext (s : PyStr) : PyStr × PyStr :=
  let sepIdx : Int :=
    match rfindIdx (fun c => c = '\\' || c = '/') s with
    | some i => (i : Int)
    | none => -1
  let dotIdx : Int :=
    match rfindIdx (fun c => c = '.') s with
    | some i => (i : Int)
    | none => -1
  if sepIdx < dotIdx then
    let d := dotIdx.toNat
    let stem := (s.take d).drop (sepIdx + 1).toNat
    if stem.all (fun c => c = '.') then (s, [])
    else (s.take d, s.drop d)
  else (s, [])

/-- The `os.path.join(a, b)` of the Windows path module, for the case the
program exercises: `b` is a plain file name (no separator and no drive).
A separator is inserted unless `a` is empty or already ends in a
separator or a drive colon. -/
def os_path_join (a b : PyStr) : PyStr :=
  match a.getLast? with
  | none => b
  | some c => if c = '\\' || c = '/' || c = ':' then a ++ b else a ++ ('\\' :: b)

/-- One row of the DATA table: the opaque `_id` key and the raw bytes of
the FILE blob column. -/
structure Row where
  row_id : Int
  blob : List Nat
deriving DecidableEq

/-- One element of the flattened profile collection built by
`load_profiles_from_db`: the Python dict
`{ db_row_id, entire_json, profile }`. -/
structure Entry where
  db_row_id : Int
  entire_json : Json
  profile : Json
deriving DecidableEq

/-- Lines 132 to 141 of the source, for one successfully parsed row:
`parsed_data.get("applications")` (an AttributeError when the document
is not a dict), the `isinstance` checks, and one entry appended per
element of the list. -/
def extract_row_entries (row_id : Int) (parsed : Json) : Except Unit (List Entry) :=
  match parsed with
  | .obj kvs =>
    match lookupKV kvs (pys "applications") with
    | some (.obj skvs) =>
      match getKV skvs (pys "applications") (.arr []) with
      | .arr profs => .ok (profs.map fun p => ⟨row_id, parsed, p⟩)
      | _ => .ok []
    | _ => .ok []
  | _ => .error ()

/-- The row loop of `load_profiles_from_db` (lines 121 to 141): an empty
blob is skipped, a blob that fails UTF-8 decoding or JSON parsing
(modelled by the `parse` parameter returning `none`) is logged and
skipped, and the entries of the remaining rows are appended in order. -/
def collect_entries (parse : List Nat → Option Json) :
    List Row → Except Unit (List Entry)
  | [] => .ok []
  | r :: rs =>
    if r.blob = [] then collect_entries parse rs
    else
      match parse r.blob with
      | none => collect_entries parse rs
      | some parsed =>
        match extract_row_entries r.row_id parsed with
        | .error e => .error e
        | .ok es =>
          match collect_entries parse rs with
          | .error e => .error e
          | .ok rest => .ok (es ++ rest)

/-- The sort key of line 144, `p["profile"].get("name", "").lower()`: an
AttributeError when the profile is not a dict or the name value is not a
string. -/
def sort_key (e : Entry) : Except Unit PyStr :=
  match e.profile with
  | .obj kvs =>
    match getKV kvs (pys "name") (.str []) with
    | .str s => .ok (pyLower s)
    | _ => .error ()
  | _ => .error ()

/-- Key computation pass of `list.sort(key=...)`: CPython first calls
the key function on every element from left to right (an exception
there aborts the sort), then sorts by the precomputed keys only. -/
def map_keys : List Entry → Except Unit (List PyStr)
  | [] => .ok []
  | e :: es =>
    match sort_key e with
    | .error err => .error err
    | .ok k =>
      match map_keys es with
      | .error err => .error err
      | .ok ks => .ok (k :: ks)

/-- Comparison used for the display ordering: by precomputed key only. -/
def entryLe (a b : Entry × PyStr) : Prop := pyStrLe a.2 b.2 = true

instance : DecidableRel entryLe :=
  fun a b => instDecidableEqBool (pyStrLe a.2 b.2) true

/-- The `all_profiles.sort(key=...)` call of line 144.  CPython first
computes every key, then runs a stable sort comparing keys only.  A
stable sort with respect to a total preorder has a unique result, and
`List.insertionSort` with `entryLe` is such a stable sort (ties keep
encounter order), so it is the same function as the Python sort. -/
def sort_entries (es : List Entry) (ks : List PyStr) : List Entry :=
  ((es.zip ks).insertionSort entryLe).map Prod.fst

/-- Whole body of `load_profiles_from_db` (lines 108 to 146) after the
sqlite fetch: collect the entries of every row, compute every sort key,
sort stably by key. -/
def load_profiles (parse : List Nat → Option Json) (rows : List Row) :
    Except Unit (List Entry) :=
  match collect_entries parse rows with
  | .error e => .error e
  | .ok es =>
    match map_keys es with
    | .error e => .error e
    | .ok ks => .ok (sort_entries es ks)

/-- The function `save_profile_to_db` (lines 148 to 168): serialization
(`json.dumps` then UTF-8 encoding, modelled by the `serialize`
parameter) happens first, and a failure there returns before any
database access; on success the single row whose `_id` equals `row_id`
receives the new blob. -/
def save_profile_to_db (serialize : Json → Option (List Nat))
    (rows : List Row) (row_id : Int) (doc : Json) : List Row :=
  match serialize doc with
  | none => rows
  | some blob =>
    rows.map fun r => if r.row_id = row_id then { r with blob := blob } else r

/-- Python `list.remove(x)`: removes the first element comparing equal
to `x`. -/
def list_remove (x : Json) : List Json → List Json
  | [] => []
  | y :: ys => if y = x then ys else y :: list_remove x ys

/-- Index of the first element of the list whose value equals `x` (the
position Python `list.remove` deletes); equals the length when the value
is absent. -/
def first_index_of (x : Json) : List Json → Nat
  | [] => 0
  | y :: ys => if y = x then 0 else first_index_of x ys + 1

/-- Document transformation of `delete_entry` (lines 442 to 445):
`apps_list = entire_json.get("applications", {}).get("applications", [])`,
the membership guard, `apps_list.remove(prof_to_delete)`, and the
subscript assignment `entire_json["applications"]["applications"]`
(a KeyError when the document has no applications key, an error when a
value of an unexpected type is subscripted). -/
def delete_entry_doc (doc target : Json) : Except Unit Json :=
  match doc with
  | .obj kvs =>
    match getKV kvs (pys "applications") (.obj []) with
    | .obj skvs =>
      match getKV skvs (pys "applications") (.arr []) with
      | .arr l =>
        let l2 := if l.contains target then list_remove target l else l
        match lookupKV kvs (pys "applications") with
        | some (.obj skvs2) =>
          .ok (.obj (setKV kvs (pys "applications")
            (.obj (setKV skvs2 (pys "applications") (.arr l2)))))
        | some _ => .error ()
        | none => .error ()
      | _ => .error ()
    | _ => .error ()
  | _ => .error ()

/-- The fresh record built by `add_entry` (lines 400 to 406). -/
def new_profile_template : Json :=
  .obj [(pys "applicationId", .str (pys "new-app-id")),
        (pys "applicationPath", .str []),
        (pys "isCustom", .bool true),
        (pys "name", .str (pys "New Entry")),
        (pys "posterPath", .str [])]

/-- In-memory state of the editor relevant to the store: the database
rows and the flattened profile collection `self.profiles`. -/
structure AppState where
  rows : List Row
  profiles : List Entry

/-- The function `add_entry` (lines 390 to 415, before the UI
re-selection): with an empty profile collection it only shows a message
box and returns; otherwise it takes `self.profiles[0]`, appends the
template to its applications list (materializing the two wrapper
objects when absent, since `get` supplied `{}` and `[]` defaults and the
results are assigned back), persists that document to its row, and
reloads the collection from the store. -/
def add_entry (parse : List Nat → Option Json)
    (serialize : Json → Option (List Nat)) (s : AppState) :
    Except Unit AppState :=
  match s.profiles with
  | [] => .ok s
  | e :: _ =>
    match e.entire_json with
    | .obj kvs =>
      match getKV kvs (pys "applications") (.obj []) with
      | .obj skvs =>
        match getKV skvs (pys "applications") (.arr []) with
        | .arr l =>
          let doc2 : Json :=
            .obj (setKV kvs (pys "applications")
              (.obj (setKV skvs (pys "applications")
                (.arr (l ++ [new_profile_template])))))
          let rows2 := save_profile_to_db serialize s.rows e.db_row_id doc2
          match load_profiles parse rows2 with
          | .error err => .error err
          | .ok ps => .ok ⟨rows2, ps⟩
        | _ => .error ()
      | _ => .error ()
    | _ => .error ()

/-- Field writes of `save_changes` (lines 551 to 553) on one profile
record: the three recognized fields are assigned; every other binding of
the dict is untouched. -/
def update_record (prof : Json) (nm ap pp : PyStr) : Except Unit Json :=
  match prof with
  | .obj kvs =>
    .ok (.obj (setKV (setKV (setKV kvs (pys "name") (.str nm))
      (pys "applicationPath") (.str ap)) (pys "posterPath") (.str pp)))
  | _ => .error ()

/-- Document-level effect of `save_changes` (lines 546 to 555) for the
handle (document, position `i`): the source mutates the record through
the alias `self.profiles[idx]["profile"]`, which lives at position `i`
of the applications list of its owning document, so the value-level
effect is to replace exactly that position. -/
def save_changes_doc (doc : Json) (i : Nat) (nm ap pp : PyStr) :
    Except Unit Json :=
  match doc with
  | .obj kvs =>
    match lookupKV kvs (pys "applications") with
    | some (.obj skvs) =>
      match lookupKV skvs (pys "applications") with
      | some (.arr l) =>
        match l[i]? with
        | some prof =>
          match update_record prof nm ap pp with
          | .error e => .error e
          | .ok prof2 =>
            .ok (.obj (setKV kvs (pys "applications")
              (.obj (setKV skvs (pys "applications") (.arr (l.set i prof2))))))
        | none => .error ()
      | _ => .error ()
    | _ => .error ()
  | _ => .error ()

/-- Lines 488 of the source:
`app_name = prof.get("name", "").strip() or "app_unknown"`. -/
def app_name_of (nm : PyStr) : PyStr :=
  let t := pyStrip nm
  if t = [] then pys "app_unknown" else t

/-- Line 489 of the source:
`safe_name = re.sub(r'[^\w\s-]', '', app_name).strip().replace(' ', '_') or "icon"`. -/
def safe_name_of (nm : PyStr) : PyStr :=
  let s := (pyStrip ((app_name_of nm).filter keepSanitized)).map
    (fun c => if c = ' ' then '_' else c)
  if s = [] then pys "icon" else s

/-- Target path computation of `browse_icon` (lines 487 to 496), given
the already stripped current posterPath and the raw name value. -/
def final_path_of (icon_cache_folder existing_path nm : PyStr) : PyStr :=
  if existing_path ≠ [] then
    (os_path_splitext existing_path).1 ++ pys ".bmp"
  else
    os_path_join icon_cache_folder (safe_name_of nm ++ pys ".bmp")

/-- Result of one `browse_icon` call: the (possibly updated) profile
record and the list of performed file write events (target path and
written payload). -/
structure IconResult where
  prof : Json
  writes : List (PyStr × List Nat)
deriving DecidableEq

/-- The function `browse_icon` (lines 463 to 508) after the file dialog,
for a chosen source image: `decoded` is the outcome of `Image.open`
(`none` on a decode failure, which returns before the record is even
read), then the stripped posterPath selects the target derivation, and
`img.save(final_path, "BMP")` (modelled by `writeOk` and the `encodeBMP`
payload) either fails, returning with the record untouched, or succeeds,
after which `prof["posterPath"] = final_path` is assigned. -/
def browse_icon {I : Type} (decoded : Option I) (encodeBMP : I → List Nat)
    (writeOk : PyStr → Bool) (icon_cache_folder : PyStr) (prof : Json) :
    Except Unit IconResult :=
  match decoded with
  | none => .ok ⟨prof, []⟩
  | some img =>
    match prof with
    | .obj kvs =>
      match getKV kvs (pys "posterPath") (.str []) with
      | .str p0 =>
        match getKV kvs (pys "name") (.str []) with
        | .str n0 =>
          let final_path := final_path_of icon_cache_folder (pyStrip p0) n0
          if writeOk final_path then
            .ok ⟨.obj (setKV kvs (pys "posterPath") (.str final_path)),
                 [(final_path, encodeBMP img)]⟩
          else .ok ⟨prof, []⟩
        | _ => .error ()
      | _ => .error ()
    | _ => .error ()

/-! Basic lemmas about the dict and path helpers. -/

theorem lookupKV_setKV_self (kvs : List (PyStr × Json)) (k : PyStr) (v : Json) :
    lookupKV (setKV kvs k v) k = some v := by
  induction kvs with
  | nil => simp [setKV, lookupKV]
  | cons hd tl ih =>
    obtain ⟨k0, v0⟩ := hd
    by_cases h : k0 = k
    · simp [setKV, lookupKV, h]
    · simp [setKV, lookupKV, h, ih]

theorem lookupKV_setKV_ne (kvs : List (PyStr × Json)) (k k2 : PyStr) (v : Json)
    (h : k2 ≠ k) : lookupKV (setKV kvs k v) k2 = lookupKV kvs k2 := by
  induction kvs with
  | nil => simp [setKV, lookupKV, Ne.symm h]
  | cons hd tl ih =>
    obtain ⟨k0, v0⟩ := hd
    by_cases h0 : k0 = k
    · subst h0
      simp [setKV, lookupKV, Ne.symm h, h]
    · by_cases h2 : k0 = k2
      · simp [setKV, lookupKV, h0, h2, h]
      · simp [setKV, lookupKV, h0, h2, ih]

theorem os_path_splitext_append (s : PyStr) :
    (os_path_splitext s).1 ++ (os_path_splitext s).2 = s := by
  unfold os_path_splitext
  split <;> split <;> dsimp only <;> split <;> try split
  all_goals simp

/-! Order theory for the code point comparison. -/

theorem pyStrLt_irrefl : ∀ a : PyStr, pyStrLt a a = false
  | [] => rfl
  | c :: cs => by simp [pyStrLt, pyStrLt_irrefl cs]

theorem pyStrLe_refl (a : PyStr) : pyStrLe a a = true := by
  simp [pyStrLe, pyStrLt_irrefl]

theorem pyStrLt_asymm : ∀ a b : PyStr, pyStrLt a b = true → pyStrLt b a = false
  | _, [], h => by simp [pyStrLt] at h
  | [], _ :: _, _ => rfl
  | a :: as, b :: bs, h => by
    by_cases e1 : a.toNat < b.toNat
    · have e2 : ¬ b.toNat < a.toNat := by omega
      simp [pyStrLt, e1, e2]
    · by_cases e2 : b.toNat < a.toNat
      · simp [pyStrLt, e1, e2] at h
      · simp only [pyStrLt, if_neg e1, if_neg e2] at h ⊢
        exact pyStrLt_asymm as bs h

theorem pyStrLt_false_trans (a : PyStr) : ∀ b c : PyStr,
    pyStrLt a b = false → pyStrLt b c = false → pyStrLt a c = false := by
  induction a with
  | nil =>
    intro b c h1 h2
    cases b with
    | nil =>
      cases c with
      | nil => rfl
      | cons c0 cs => simp [pyStrLt] at h2
    | cons b0 bs => simp [pyStrLt] at h1
  | cons a0 as ih =>
    intro b c h1 h2
    cases c with
    | nil => simp [pyStrLt]
    | cons c0 cs =>
      cases b with
      | nil => simp [pyStrLt] at h2
      | cons b0 bs =>
        simp only [pyStrLt] at h1 h2 ⊢
        by_cases e1 : a0.toNat < b0.toNat
        · simp [e1] at h1
        · by_cases e2 : b0.toNat < c0.toNat
          · simp [e2] at h2
          · have e3 : ¬ a0.toNat < c0.toNat := by omega
            by_cases e4 : c0.toNat < a0.toNat
            · simp [e3, e4]
            · have e5 : ¬ b0.toNat < a0.toNat := by omega
              have e6 : ¬ c0.toNat < b0.toNat := by omega
              simp only [if_neg e1, if_neg e5] at h1
              simp only [if_neg e2, if_neg e6] at h2
              simp only [if_neg e3, if_neg e4]
              exact ih bs cs h1 h2

instance : IsTotal (Entry × PyStr) entryLe := by
  constructor
  intro a b
  by_cases h : pyStrLt b.2 a.2 = true
  · right
    have h2 := pyStrLt_asymm _ _ h
    simp [entryLe, pyStrLe, h2]
  · left
    simp only [Bool.not_eq_true] at h
    simp [entryLe, pyStrLe, h]

instance : IsTrans (Entry × PyStr) entryLe := by
  constructor
  intro a b c h1 h2
  simp only [entryLe, pyStrLe, Bool.not_eq_true'] at h1 h2 ⊢
  exact pyStrLt_false_trans c.2 b.2 a.2 h2 h1

/-! Spec-level descriptions of the per-row extraction, used to state the
load isolation property. -/

/-- Profiles a single parsed document contributes: its
`applications.applications` list when present and well-typed, nothing
otherwise. -/
def doc_profiles (d : Json) : List Json :=
  match d with
  | .obj kvs =>
    match lookupKV kvs (pys "applications") with
    | some (.obj skvs) =>
      match getKV skvs (pys "applications") (.arr []) with
      | .arr l => l
      | _ => []
    | _ => []
  | _ => []

/-- Entries a single row contributes to a load: none when the blob is
empty or fails to decode or parse, one per profile otherwise. -/
def row_entries (parse : List Nat → Option Json) (r : Row) : List Entry :=
  if r.blob = [] then []
  else
    match parse r.blob with
    | none => []
    | some d => (doc_profiles d).map fun p => ⟨r.row_id, d, p⟩

/-- A profile record whose name access used by the sort key cannot
raise: a dict whose name value, when present, is a string. -/
def profile_name_ok (p : Json) : Bool :=
  match p with
  | .obj kvs =>
    match getKV kvs (pys "name") (.str []) with
    | .str _ => true
    | _ => false
  | _ => false

/-- A parsed document the load loop can process without raising: a
top-level dict whose profiles all satisfy `profile_name_ok`. -/
def doc_ok (d : Json) : Bool :=
  match d with
  | .obj _ => (doc_profiles d).all profile_name_ok
  | _ => false

theorem extract_row_entries_of_doc_ok (row_id : Int) (d : Json)
    (h : doc_ok d = true) :
    extract_row_entries row_id d
      = .ok ((doc_profiles d).map fun p => ⟨row_id, d, p⟩) := by
  cases d with
  | obj kvs =>
    cases hx : lookupKV kvs (pys "applications") with
    | none => simp [extract_row_entries, doc_profiles, hx]
    | some v =>
      cases v with
      | obj skvs =>
        cases hy : getKV skvs (pys "applications") (.arr []) <;>
          simp [extract_row_entries, doc_profiles, hx, hy]
      | null => simp [extract_row_entries, doc_profiles, hx]
      | bool b => simp [extract_row_entries, doc_profiles, hx]
      | num n => simp [extract_row_entries, doc_profiles, hx]
      | str s => simp [extract_row_entries, doc_profiles, hx]
      | arr xs => simp [extract_row_entries, doc_profiles, hx]
  | null => simp [doc_ok] at h
  | bool b => simp [doc_ok] at h
  | num n => simp [doc_ok] at h
  | str s => simp [doc_ok] at h
  | arr xs => simp [doc_ok] at h

theorem collect_entries_of_doc_ok (parse : List Nat → Option Json) :
    ∀ rows : List Row,
    (∀ r ∈ rows, ∀ d, r.blob ≠ [] → parse r.blob = some d → doc_ok d = true) →
    collect_entries parse rows = .ok (rows.flatMap (row_entries parse)) := by
  intro rows
  induction rows with
  | nil => intro _; rfl
  | cons r rs ih =>
    intro h
    have hr := fun d => h r (by simp) d
    have htail : ∀ x ∈ rs, ∀ d, x.blob ≠ [] → parse x.blob = some d → doc_ok d = true :=
      fun x hx d => h x (by simp [hx]) d
    by_cases hb : r.blob = []
    · simp [collect_entries, hb, List.flatMap_cons, row_entries, ih htail]
    · cases hp : parse r.blob with
      | none => simp [collect_entries, hb, List.flatMap_cons, row_entries, hp, ih htail]
      | some d =>
        have hd : doc_ok d = true := hr d hb hp
        simp [collect_entries, hb, hp, List.flatMap_cons, row_entries,
          extract_row_entries_of_doc_ok r.row_id d hd, ih htail]

theorem map_keys_ok : ∀ es : List Entry,
    (∀ e ∈ es, profile_name_ok e.profile = true) →
    ∃ ks, map_keys es = .ok ks ∧ ks.length = es.length := by
  intro es
  induction es with
  | nil => intro _; exact ⟨[], rfl, rfl⟩
  | cons e es ih =>
    intro h
    have he : profile_name_ok e.profile = true := h e (by simp)
    obtain ⟨ks, hks, hlen⟩ := ih (fun x hx => h x (by simp [hx]))
    have hk : ∃ k, sort_key e = .ok k := by
      cases hp : e.profile with
      | obj kvs =>
        rw [hp] at he
        cases hg : getKV kvs (pys "name") (.str []) with
        | str s => exact ⟨pyLower s, by simp [sort_key, hp, hg]⟩
        | null => simp [profile_name_ok, hg] at he
        | bool b => simp [profile_name_ok, hg] at he
        | num n => simp [profile_name_ok, hg] at he
        | arr xs => simp [profile_name_ok, hg] at he
        | obj kvs2 => simp [profile_name_ok, hg] at he
      | null => rw [hp] at he; simp [profile_name_ok] at he
      | bool b => rw [hp] at he; simp [profile_name_ok] at he
      | num n => rw [hp] at he; simp [profile_name_ok] at he
      | str s => rw [hp] at he; simp [profile_name_ok] at he
      | arr xs => rw [hp] at he; simp [profile_name_ok] at he
    obtain ⟨k, hkk⟩ := hk
    exact ⟨k :: ks, by simp [map_keys, hkk, hks], by simp [hlen]⟩

theorem map_keys_zip : ∀ (es : List Entry) (ks : List PyStr),
    map_keys es = .ok ks → ∀ p ∈ es.zip ks, sort_key p.1 = .ok p.2 := by
  intro es
  induction es with
  | nil => intro ks _ p hp; simp at hp
  | cons e es ih =>
    intro ks hks p hp
    unfold map_keys at hks
    cases hk : sort_key e with
    | error err => rw [hk] at hks; simp at hks
    | ok k =>
      rw [hk] at hks
      cases hrest : map_keys es with
      | error err => rw [hrest] at hks; simp at hks
      | ok ks2 =>
        rw [hrest] at hks
        simp only at hks
        cases hks
        simp only [List.zip_cons_cons, List.mem_cons] at hp
        rcases hp with h | h
        · subst h; exact hk
        · exact ih ks2 hrest p h

theorem map_keys_length : ∀ (es : List Entry) (ks : List PyStr),
    map_keys es = .ok ks → ks.length = es.length := by
  intro es
  induction es with
  | nil => intro ks hks; cases hks; rfl
  | cons e es ih =>
    intro ks hks
    unfold map_keys at hks
    cases hk : sort_key e with
    | error err => rw [hk] at hks; simp at hks
    | ok k =>
      rw [hk] at hks
      cases hrest : map_keys es with
      | error err => rw [hrest] at hks; simp at hks
      | ok ks2 =>
        rw [hrest] at hks
        simp only at hks
        cases hks
        simp [ih ks2 hrest]

theorem sort_entries_perm (es : List Entry) (ks : List PyStr)
    (h : ks.length = es.length) : (sort_entries es ks).Perm es := by
  unfold sort_entries
  have h1 := (List.perm_insertionSort entryLe (es.zip ks)).map Prod.fst
  rwa [List.map_fst_zip es ks (by omega)] at h1

/-! Claim C9. -/

/-- C9: when serializing the document to JSON text fails, persist
aborts before performing any write, and the store, including the row
named by row_id, is completely unchanged. -/
theorem save_profile_to_db_serialize_failure
    (serialize : Json → Option (List Nat)) (rows : List Row)
    (row_id : Int) (doc : Json) (h : serialize doc = none) :
    save_profile_to_db serialize rows row_id doc = rows := by
  simp [save_profile_to_db, h]

/-- Witness for C9 at a concrete store and a failing serializer. -/
theorem save_profile_to_db_serialize_failure_witness :
    (fun _ : Json => (none : Option (List Nat))) (.obj []) = none ∧
    save_profile_to_db (fun _ => none) [⟨1, [7]⟩, ⟨2, [8]⟩] 1 (.obj [])
      = [⟨1, [7]⟩, ⟨2, [8]⟩] :=
  ⟨rfl, save_profile_to_db_serialize_failure _ _ _ _ rfl⟩

/-! Claim C10. -/

/-- C10: when the loaded profile collection is empty, add_entry only
shows a message box and returns: no document is created or modified,
nothing is persisted to the store, and no error is raised. -/
theorem add_entry_empty_profiles_noop (parse : List Nat → Option Json)
    (serialize : Json → Option (List Nat)) (s : AppState)
    (h : s.profiles = []) : add_entry parse serialize s = .ok s := by
  obtain ⟨rows, profiles⟩ := s
  simp only at h
  subst h
  rfl

/-- Witness for C10: a store with one row but no loaded profiles is
left untouched. -/
theorem add_entry_empty_profiles_noop_witness :
    (AppState.mk [⟨1, [7]⟩] []).profiles = [] ∧
    add_entry (fun _ => none) (fun _ => some [9]) ⟨[⟨1, [7]⟩], []⟩
      = .ok ⟨[⟨1, [7]⟩], []⟩ :=
  ⟨rfl, add_entry_empty_profiles_noop _ _ _ rfl⟩

/-! Claim C1. -/

theorem remove_guard_eq_eraseIdx (x : Json) : ∀ l : List Json,
    (if l.contains x then list_remove x l else l)
      = l.eraseIdx (first_index_of x l) := by
  intro l
  induction l with
  | nil => simp [list_remove, first_index_of]
  | cons y ys ih =>
    by_cases h : y = x
    · subst h
      simp [List.contains_cons, list_remove, first_index_of]
    · have hxy : (x == y) = false := by
        simp only [beq_eq_false_iff_ne]
        exact Ne.symm h
      have hcc : (y :: ys).contains x = ys.contains x := by
        rw [List.contains_cons, hxy, Bool.false_or]
      rw [hcc]
      simp only [list_remove, if_neg h, first_index_of, List.eraseIdx_cons_succ]
      by_cases hc : ys.contains x = true
      · rw [if_pos hc, ← ih, if_pos hc]
      · rw [if_neg hc, ← ih, if_neg hc]

/-- C1 counterexample: in a document whose list is `[v, y, v]` with two
value-equal copies of `v`, deleting the handle whose target position is
the second copy (index 2) removes the FIRST copy: the stored list
becomes `[y, v]`, not the `[v, y]` that removing index 2 would give. -/
theorem delete_entry_target_position_cex :
    delete_entry_doc
        (.obj [(pys "applications", .obj [(pys "applications",
          .arr [.obj [(pys "name", .str (pys "x"))],
                .obj [(pys "name", .str (pys "y"))],
                .obj [(pys "name", .str (pys "x"))]])])])
        (.obj [(pys "name", .str (pys "x"))])
      = .ok (.obj [(pys "applications", .obj [(pys "applications",
          .arr [.obj [(pys "name", .str (pys "y"))],
                .obj [(pys "name", .str (pys "x"))]])])])
    ∧ [Json.obj [(pys "name", .str (pys "x"))],
       .obj [(pys "name", .str (pys "y"))],
       .obj [(pys "name", .str (pys "x"))]].eraseIdx 2
        = [.obj [(pys "name", .str (pys "x"))],
           .obj [(pys "name", .str (pys "y"))]]
    ∧ [Json.obj [(pys "name", .str (pys "y"))],
       .obj [(pys "name", .str (pys "x"))]]
        ≠ [.obj [(pys "name", .str (pys "x"))],
           .obj [(pys "name", .str (pys "y"))]] := by
  refine ⟨by rfl, by rfl, by decide⟩

/-- C1 amended: delete removes the record at the FIRST position of the
owning list whose value equals the target record (the semantics of
Python list.remove guarded by a membership test), leaving the list
unchanged when no value-equal record exists; only when the handle
points at the first value-equal occurrence is this the handle position. -/
theorem delete_entry_doc_removes_first_value_equal
    (target : Json) (kvs skvs : List (PyStr × Json)) (l : List Json)
    (h2 : lookupKV kvs (pys "applications") = some (.obj skvs))
    (h3 : getKV skvs (pys "applications") (.arr []) = .arr l) :
    delete_entry_doc (.obj kvs) target
      = .ok (.obj (setKV kvs (pys "applications")
          (.obj (setKV skvs (pys "applications")
            (.arr (l.eraseIdx (first_index_of target l))))))) := by
  have hg : getKV kvs (pys "applications") (.obj []) = .obj skvs := by
    simp [getKV, h2]
  simp only [delete_entry_doc, hg, h3, h2, remove_guard_eq_eraseIdx]

/-- Witness for the amended C1 statement on a concrete document with a
duplicated record value. -/
theorem delete_entry_doc_removes_first_value_equal_witness :
    lookupKV [(pys "applications", Json.obj [(pys "applications",
        Json.arr [.num 7, .num 8, .num 7])])] (pys "applications")
      = some (.obj [(pys "applications", .arr [.num 7, .num 8, .num 7])])
    ∧ getKV [(pys "applications", Json.arr [.num 7, .num 8, .num 7])]
        (pys "applications") (.arr [])
      = .arr [.num 7, .num 8, .num 7]
    ∧ delete_entry_doc
        (.obj [(pys "applications", .obj [(pys "applications",
          .arr [.num 7, .num 8, .num 7])])]) (.num 7)
      = .ok (.obj (setKV [(pys "applications", Json.obj [(pys "applications",
          Json.arr [.num 7, .num 8, .num 7])])] (pys "applications")
          (.obj (setKV [(pys "applications", Json.arr [.num 7, .num 8, .num 7])]
            (pys "applications")
            (.arr ([Json.num 7, .num 8, .num 7].eraseIdx
              (first_index_of (.num 7) [.num 7, .num 8, .num 7]))))))) :=
  ⟨rfl, rfl, delete_entry_doc_removes_first_value_equal _ _ _ _ rfl rfl⟩

/-! Claim C2. -/

/-- Fixture: profile named zebra. -/
def zebraProfile : Json := .obj [(pys "name", .str (pys "zebra"))]

/-- Fixture: profile named apple. -/
def appleProfile : Json := .obj [(pys "name", .str (pys "apple"))]

/-- Fixture: document of row 1, containing only the zebra profile. -/
def rowOneDoc : Json :=
  .obj [(pys "applications", .obj [(pys "applications", .arr [zebraProfile])])]

/-- Fixture: document of row 2, containing only the apple profile. -/
def rowTwoDoc : Json :=
  .obj [(pys "applications", .obj [(pys "applications", .arr [appleProfile])])]

/-- Fixture: parser mapping blob [1] to the row 1 document and blob [2]
to the row 2 document; everything else fails to parse. -/
def fixtureParse : List Nat → Option Json := fun b =>
  if b = [1] then some rowOneDoc else if b = [2] then some rowTwoDoc else none

/-- Fixture: a store of two rows, row 1 first in load order. -/
def fixtureRows : List Row := [⟨1, [1]⟩, ⟨2, [2]⟩]

/-- Fixture: serializer that always produces blob [9]. -/
def fixtureSer : Json → Option (List Nat) := fun _ => some [9]

/-- C2 counterexample: in a two-row store whose first row in load order
(row 1) holds the profile zebra and whose second row holds apple, the
loaded collection is name-sorted to [apple, zebra], so add_entry
appends to the document of row 2 (the row owning the alphabetically
first profile) and persists row 2; row 1, the first document in load
order, is untouched, contradicting the claim. -/
theorem add_entry_first_load_order_cex :
    load_profiles fixtureParse fixtureRows
      = .ok [⟨2, rowTwoDoc, appleProfile⟩, ⟨1, rowOneDoc, zebraProfile⟩]
    ∧ (add_entry fixtureParse fixtureSer
        ⟨fixtureRows, [⟨2, rowTwoDoc, appleProfile⟩, ⟨1, rowOneDoc, zebraProfile⟩]⟩).map
          (fun s => s.rows)
      = .ok [⟨1, [1]⟩, ⟨2, [9]⟩]
    ∧ save_profile_to_db fixtureSer fixtureRows 1 rowOneDoc
        = [⟨1, [9]⟩, ⟨2, [2]⟩]
    ∧ ([⟨1, [1]⟩, ⟨2, [9]⟩] : List Row) ≠ [⟨1, [9]⟩, ⟨2, [2]⟩] := by
  refine ⟨by rfl, by rfl, by rfl, by decide⟩

/-- C2 amended: for a non-empty loaded collection, add_entry appends
the template record to the end of the ApplicationsSection list of the
document owning `self.profiles[0]` — the first profile of the
name-sorted display ordering, not the first document in load order —
creating the applications wrapper objects when absent, and persists
exactly that document to its row. -/
theorem add_entry_appends_to_head_profile_document
    (parse : List Nat → Option Json) (serialize : Json → Option (List Nat))
    (s : AppState) (e : Entry) (rest : List Entry)
    (kvs skvs : List (PyStr × Json)) (l : List Json) (ps : List Entry)
    (h1 : s.profiles = e :: rest)
    (h2 : e.entire_json = .obj kvs)
    (h3 : getKV kvs (pys "applications") (.obj []) = .obj skvs)
    (h4 : getKV skvs (pys "applications") (.arr []) = .arr l)
    (h5 : load_profiles parse (save_profile_to_db serialize s.rows e.db_row_id
            (.obj (setKV kvs (pys "applications")
              (.obj (setKV skvs (pys "applications")
                (.arr (l ++ [new_profile_template]))))))) = .ok ps) :
    add_entry parse serialize s
      = .ok ⟨save_profile_to_db serialize s.rows e.db_row_id
               (.obj (setKV kvs (pys "applications")
                 (.obj (setKV skvs (pys "applications")
                   (.arr (l ++ [new_profile_template])))))), ps⟩
    ∧ doc_profiles (.obj (setKV kvs (pys "applications")
        (.obj (setKV skvs (pys "applications")
          (.arr (l ++ [new_profile_template]))))))
      = l ++ [new_profile_template] := by
  constructor
  · simp only [add_entry, h1, h2, h3, h4, h5]
  · simp [doc_profiles, lookupKV_setKV_self, getKV]

/-- Witness for the amended C2 statement on the concrete two-row
fixture store. -/
theorem add_entry_appends_to_head_profile_document_witness :
    (AppState.mk fixtureRows
        [⟨2, rowTwoDoc, appleProfile⟩, ⟨1, rowOneDoc, zebraProfile⟩]).profiles
      = ⟨2, rowTwoDoc, appleProfile⟩ :: [⟨1, rowOneDoc, zebraProfile⟩]
    ∧ add_entry fixtureParse fixtureSer
        ⟨fixtureRows, [⟨2, rowTwoDoc, appleProfile⟩, ⟨1, rowOneDoc, zebraProfile⟩]⟩
      = .ok ⟨save_profile_to_db fixtureSer fixtureRows 2
               (.obj (setKV [(pys "applications", Json.obj [(pys "applications",
                   Json.arr [appleProfile])])] (pys "applications")
                 (.obj (setKV [(pys "applications", Json.arr [appleProfile])]
                   (pys "applications")
                   (.arr ([appleProfile] ++ [new_profile_template])))))),
             [⟨1, rowOneDoc, zebraProfile⟩]⟩
    ∧ doc_profiles (.obj (setKV [(pys "applications", Json.obj [(pys "applications",
          Json.arr [appleProfile])])] (pys "applications")
        (.obj (setKV [(pys "applications", Json.arr [appleProfile])]
          (pys "applications") (.arr ([appleProfile] ++ [new_profile_template]))))))
      = [appleProfile] ++ [new_profile_template] := by
  have happ := add_entry_appends_to_head_profile_document fixtureParse fixtureSer
    ⟨fixtureRows, [⟨2, rowTwoDoc, appleProfile⟩, ⟨1, rowOneDoc, zebraProfile⟩]⟩
    ⟨2, rowTwoDoc, appleProfile⟩ [⟨1, rowOneDoc, zebraProfile⟩]
    [(pys "applications", Json.obj [(pys "applications", Json.arr [appleProfile])])]
    [(pys "applications", Json.arr [appleProfile])]
    [appleProfile] [⟨1, rowOneDoc, zebraProfile⟩]
    rfl rfl rfl rfl (by rfl)
  exact ⟨rfl, happ.1, happ.2⟩

/-! Claim C3. -/

/-- Fixture: parser where blob [1] is the row 1 document and blob [5]
parses as the JSON array [] (valid JSON, but not an object). -/
def fixtureParseArr : List Nat → Option Json := fun b =>
  if b = [1] then some rowOneDoc
  else if b = [5] then some (.arr []) else none

/-- C3 counterexample: a store with a good row 1 and a row 2 whose
payload parses as the JSON array [] (valid JSON).  The claim calls such
a row neither empty, nor invalid UTF-8, nor invalid JSON, so it demands
the profiles of row 1 to still be returned; the code instead raises an
AttributeError on `parsed_data.get` and the whole load aborts with no
profiles at all. -/
theorem load_profiles_skip_cex :
    fixtureParseArr [5] = some (.arr [])
    ∧ load_profiles fixtureParseArr [⟨1, [1]⟩, ⟨2, [5]⟩] = .error () := by
  refine ⟨by rfl, by rfl⟩

/-- C3 amended: provided every successfully parsed payload is a JSON
object whose profile entries are dicts with string (or absent) name
values, load returns exactly the profiles of the rows whose payload
decodes and parses: a row whose payload is empty or fails to parse is
skipped without aborting, and the returned collection is a permutation
(the name-sorted display ordering) of the concatenated per-row
profiles. -/
theorem load_profiles_row_isolation (parse : List Nat → Option Json)
    (rows : List Row)
    (hshape : ∀ r ∈ rows, r.blob ≠ [] → (parse r.blob).all doc_ok = true) :
    ∃ es, load_profiles parse rows = .ok es
      ∧ es.Perm (rows.flatMap (row_entries parse)) := by
  have hshape2 : ∀ r ∈ rows, ∀ d, r.blob ≠ [] → parse r.blob = some d →
      doc_ok d = true := by
    intro r hr d hb hp
    have := hshape r hr hb
    rw [hp] at this
    simpa [Option.all] using this
  have hc := collect_entries_of_doc_ok parse rows hshape2
  have hall : ∀ e ∈ rows.flatMap (row_entries parse),
      profile_name_ok e.profile = true := by
    intro e he
    rw [List.mem_flatMap] at he
    obtain ⟨r, hr, hre⟩ := he
    unfold row_entries at hre
    by_cases hb : r.blob = []
    · simp [hb] at hre
    · rw [if_neg hb] at hre
      cases hp : parse r.blob with
      | none => rw [hp] at hre; simp at hre
      | some d =>
        rw [hp] at hre
        simp only [List.mem_map] at hre
        obtain ⟨p, hpmem, hpe⟩ := hre
        have hd := hshape2 r hr d hb hp
        cases d with
        | obj kvs2 =>
          simp only [doc_ok] at hd
          rw [List.all_eq_true] at hd
          have hpok := hd p hpmem
          rw [← hpe]
          exact hpok
        | null => simp [doc_ok] at hd
        | bool b => simp [doc_ok] at hd
        | num n => simp [doc_ok] at hd
        | str s => simp [doc_ok] at hd
        | arr xs => simp [doc_ok] at hd
  obtain ⟨ks, hks, hlen⟩ := map_keys_ok _ hall
  refine ⟨sort_entries (rows.flatMap (row_entries parse)) ks, ?_, ?_⟩
  · simp only [load_profiles, hc, hks]
  · exact sort_entries_perm _ _ hlen

/-- Witness for the amended C3 statement: the three-row store of the
claim, with row 2 invalid, yields exactly the profiles of rows 1 and 3
(apple of row 3 sorted before zebra of row 1). -/
theorem load_profiles_row_isolation_witness :
    (∀ r ∈ ([⟨1, [1]⟩, ⟨2, [66]⟩, ⟨3, [2]⟩] : List Row), r.blob ≠ [] →
      (fixtureParse r.blob).all doc_ok = true)
    ∧ (∃ es, load_profiles fixtureParse [⟨1, [1]⟩, ⟨2, [66]⟩, ⟨3, [2]⟩] = .ok es
        ∧ es.Perm (([⟨1, [1]⟩, ⟨2, [66]⟩, ⟨3, [2]⟩] : List Row).flatMap
            (row_entries fixtureParse)))
    ∧ load_profiles fixtureParse [⟨1, [1]⟩, ⟨2, [66]⟩, ⟨3, [2]⟩]
        = .ok [⟨3, rowTwoDoc, appleProfile⟩, ⟨1, rowOneDoc, zebraProfile⟩] :=
  ⟨by decide, load_profiles_row_isolation fixtureParse _ (by decide), by rfl⟩

/-! Claim C8. -/

/-- C8: the display ordering sorts the collection by the lowercased
name (the precomputed key of each entry), the result is a permutation
of the input, it is sorted with respect to the key comparison, and the
sort is stable: for every key value, the subsequence of entries
carrying that key is exactly the same, in the same encounter order, as
in the input. -/
theorem sort_entries_sorted_stable (es : List Entry) (ks : List PyStr)
    (hk : map_keys es = .ok ks) :
    sort_entries es ks = ((es.zip ks).insertionSort entryLe).map Prod.fst
    ∧ (∀ p ∈ es.zip ks, sort_key p.1 = .ok p.2)
    ∧ ((es.zip ks).insertionSort entryLe).Perm (es.zip ks)
    ∧ List.Sorted entryLe ((es.zip ks).insertionSort entryLe)
    ∧ (∀ k : PyStr,
        ((es.zip ks).insertionSort entryLe).filter (fun q => q.2 == k)
          = (es.zip ks).filter (fun q => q.2 == k)) := by
  refine ⟨rfl, map_keys_zip es ks hk, List.perm_insertionSort _ _,
    List.sorted_insertionSort _ _, ?_⟩
  intro k
  have hperm : ((es.zip ks).insertionSort entryLe).Perm (es.zip ks) :=
    List.perm_insertionSort _ _
  have hcpair : ((es.zip ks).filter (fun q => q.2 == k)).Pairwise entryLe := by
    apply List.pairwise_of_forall_mem_list
    intro a ha b hb
    have ha3 : a.2 = k := by simpa using (List.mem_filter.mp ha).2
    have hb3 : b.2 = k := by simpa using (List.mem_filter.mp hb).2
    unfold entryLe
    rw [ha3, hb3]
    exact pyStrLe_refl k
  have hsub : List.Sublist ((es.zip ks).filter (fun q => q.2 == k))
      ((es.zip ks).insertionSort entryLe) :=
    List.sublist_insertionSort hcpair (List.filter_sublist _)
  have hsub2 := hsub.filter (fun q => q.2 == k)
  have hff : ((es.zip ks).filter (fun q => q.2 == k)).filter (fun q => q.2 == k)
      = (es.zip ks).filter (fun q => q.2 == k) := by
    rw [List.filter_eq_self]
    intro a ha
    exact (List.mem_filter.mp ha).2
  rw [hff] at hsub2
  have hpf := hperm.filter (fun q => q.2 == k)
  exact (hsub2.eq_of_length hpf.length_eq.symm).symm

/-- Fixture entries carrying only a name, for the display sort
witness. -/
def namedEntry (nm : String) : Entry :=
  ⟨1, .obj [], .obj [(pys "name", .str (pys nm))]⟩

/-- Witness for C8 on the collection of the claim: names b, A, c sort
to A, b, c, and the instantiated sortedness and stability conclusions
hold. -/
theorem sort_entries_sorted_stable_witness :
    map_keys [namedEntry "b", namedEntry "A", namedEntry "c"]
      = .ok [pys "b", pys "a", pys "c"]
    ∧ (sort_entries [namedEntry "b", namedEntry "A", namedEntry "c"]
        [pys "b", pys "a", pys "c"]
       = [namedEntry "A", namedEntry "b", namedEntry "c"])
    ∧ (sort_entries [namedEntry "b", namedEntry "A", namedEntry "c"]
        [pys "b", pys "a", pys "c"]
      = (([namedEntry "b", namedEntry "A", namedEntry "c"].zip
          [pys "b", pys "a", pys "c"]).insertionSort entryLe).map Prod.fst
      ∧ (∀ p ∈ [namedEntry "b", namedEntry "A", namedEntry "c"].zip
          [pys "b", pys "a", pys "c"], sort_key p.1 = .ok p.2)
      ∧ (([namedEntry "b", namedEntry "A", namedEntry "c"].zip
          [pys "b", pys "a", pys "c"]).insertionSort entryLe).Perm
          ([namedEntry "b", namedEntry "A", namedEntry "c"].zip
            [pys "b", pys "a", pys "c"])
      ∧ List.Sorted entryLe (([namedEntry "b", namedEntry "A", namedEntry "c"].zip
          [pys "b", pys "a", pys "c"]).insertionSort entryLe)
      ∧ (∀ k : PyStr,
          ((([namedEntry "b", namedEntry "A", namedEntry "c"].zip
            [pys "b", pys "a", pys "c"]).insertionSort entryLe).filter
              (fun q => q.2 == k))
            = (([namedEntry "b", namedEntry "A", namedEntry "c"].zip
              [pys "b", pys "a", pys "c"]).filter (fun q => q.2 == k)))) :=
  ⟨by rfl, by rfl, sort_entries_sorted_stable _ _ (by rfl)⟩

/-! Claim C4. -/

/-- C4: when materialize fails at the decode step (Image.open raises)
or at the write step (img.save raises on the derived target), the
referenced record is returned completely unchanged — posterPath keeps
its prior value — and no file write event is produced; posterPath is
assigned the derived target only when decode and write both succeed. -/
theorem browse_icon_failure_frame {I : Type} (decoded : Option I)
    (encodeBMP : I → List Nat) (writeOk : PyStr → Bool)
    (icon_cache_folder : PyStr) (kvs : List (PyStr × Json)) (p0 n0 : PyStr)
    (hp : getKV kvs (pys "posterPath") (.str []) = .str p0)
    (hn : getKV kvs (pys "name") (.str []) = .str n0)
    (hfail : decoded = none
      ∨ writeOk (final_path_of icon_cache_folder (pyStrip p0) n0) = false) :
    browse_icon decoded encodeBMP writeOk icon_cache_folder (.obj kvs)
      = .ok ⟨.obj kvs, []⟩ := by
  rcases hfail with h | h
  · subst h
    rfl
  · cases decoded with
    | none => rfl
    | some img => simp [browse_icon, hp, hn, h]

/-- Witness for C4: a concrete record where the write step fails is
returned unchanged with no write event. -/
theorem browse_icon_failure_frame_witness :
    getKV [(pys "posterPath", Json.str (pys "a.png")),
           (pys "name", Json.str (pys "x"))] (pys "posterPath") (.str [])
      = .str (pys "a.png")
    ∧ getKV [(pys "posterPath", Json.str (pys "a.png")),
             (pys "name", Json.str (pys "x"))] (pys "name") (.str [])
      = .str (pys "x")
    ∧ ((some 0 : Option Nat) = none
        ∨ (fun _ : PyStr => false)
            (final_path_of (pys "C") (pyStrip (pys "a.png")) (pys "x")) = false)
    ∧ browse_icon (some 0) (fun _ : Nat => [7]) (fun _ => false) (pys "C")
        (.obj [(pys "posterPath", .str (pys "a.png")),
               (pys "name", .str (pys "x"))])
      = .ok ⟨.obj [(pys "posterPath", .str (pys "a.png")),
                   (pys "name", .str (pys "x"))], []⟩ :=
  ⟨rfl, rfl, Or.inr rfl,
    browse_icon_failure_frame (some 0) (fun _ => [7]) (fun _ => false)
      (pys "C") _ (pys "a.png") (pys "x") rfl rfl (Or.inr rfl)⟩

/-! Claim C5. -/

/-- Sanitizer pipeline exactly as the claim words it (strip every
character that is not a word character, space, or hyphen, trim, replace
spaces with underscores), before any placeholder fallback; stated for
comparison against the `safe_name_of` of the code. -/
def spec_sanitize_core (s : PyStr) : PyStr :=
  (pyStrip (s.filter keepSanitized)).map (fun c => if c = ' ' then '_' else c)

/-- C5 counterexample: the code has two distinct fallbacks, not one
fixed placeholder — an empty (or whitespace-only) name becomes
app_unknown before sanitization, while a non-empty name sanitizing to
empty becomes icon — so no single placeholder satisfies the claim; and
a whitespace-only posterPath is a non-empty string for which the target
is nevertheless derived from the cache root and the name, not from the
posterPath base. -/
theorem browse_icon_sanitize_placeholder_cex :
    spec_sanitize_core (pys "") = []
    ∧ spec_sanitize_core (pys "???") = []
    ∧ safe_name_of (pys "") = pys "app_unknown"
    ∧ safe_name_of (pys "???") = pys "icon"
    ∧ safe_name_of (pys "") ≠ safe_name_of (pys "???")
    ∧ browse_icon (some 0) (fun _ : Nat => [7]) (fun _ => true) (pys "C")
        (.obj [(pys "posterPath", .str (pys " ")),
               (pys "name", .str (pys "x"))])
      = .ok ⟨.obj [(pys "posterPath", .str (pys "C\\x.bmp")),
                   (pys "name", .str (pys "x"))],
             [(pys "C\\x.bmp", [7])]⟩
    ∧ pys " " ≠ []
    ∧ pys "C\\x.bmp" ≠ (os_path_splitext (pys " ")).1 ++ pys ".bmp" := by
  refine ⟨by rfl, by rfl, by rfl, by rfl, by decide, by rfl, by decide, by decide⟩

/-- C5 amended: on success the record receives the derived target as
posterPath.  When the current posterPath is non-empty AFTER stripping
whitespace, the target is that stripped path with its extension
replaced by .bmp; otherwise the target is the cache root joined with
safe_name(name) plus .bmp, where safe_name first substitutes
app_unknown for a name that strips to empty, then deletes every
character that is not a word character, whitespace, or hyphen, trims,
replaces spaces with underscores, and finally falls back to icon when
that result is empty; in particular safe_name of "My: App?" is My_App
and safe_name of the empty name is app_unknown. -/
theorem browse_icon_target_derivation {I : Type} (img : I)
    (encodeBMP : I → List Nat) (writeOk : PyStr → Bool)
    (icon_cache_folder : PyStr) (kvs : List (PyStr × Json)) (p0 n0 : PyStr)
    (hp : getKV kvs (pys "posterPath") (.str []) = .str p0)
    (hn : getKV kvs (pys "name") (.str []) = .str n0)
    (hw : writeOk (final_path_of icon_cache_folder (pyStrip p0) n0) = true) :
    browse_icon (some img) encodeBMP writeOk icon_cache_folder (.obj kvs)
      = .ok ⟨.obj (setKV kvs (pys "posterPath")
               (.str (final_path_of icon_cache_folder (pyStrip p0) n0))),
             [(final_path_of icon_cache_folder (pyStrip p0) n0, encodeBMP img)]⟩
    ∧ (pyStrip p0 ≠ [] →
        final_path_of icon_cache_folder (pyStrip p0) n0
          = (os_path_splitext (pyStrip p0)).1 ++ pys ".bmp")
    ∧ (pyStrip p0 = [] →
        final_path_of icon_cache_folder (pyStrip p0) n0
          = os_path_join icon_cache_folder (safe_name_of n0 ++ pys ".bmp"))
    ∧ (∀ nm : PyStr, safe_name_of nm
        = (if spec_sanitize_core (app_name_of nm) = []
           then pys "icon" else spec_sanitize_core (app_name_of nm)))
    ∧ safe_name_of (pys "My: App?") = pys "My_App"
    ∧ safe_name_of [] = pys "app_unknown" := by
  refine ⟨by simp [browse_icon, hp, hn, hw], ?_, ?_, ?_, by rfl, by rfl⟩
  · intro h
    simp [final_path_of, h]
  · intro h
    simp [final_path_of, h]
  · intro nm
    rfl

/-- Witness for the amended C5 statement at a record with a non-empty
posterPath. -/
theorem browse_icon_target_derivation_witness :
    getKV [(pys "posterPath", Json.str (pys "a.png")),
           (pys "name", Json.str (pys "My: App?"))] (pys "posterPath") (.str [])
      = .str (pys "a.png")
    ∧ getKV [(pys "posterPath", Json.str (pys "a.png")),
             (pys "name", Json.str (pys "My: App?"))] (pys "name") (.str [])
      = .str (pys "My: App?")
    ∧ (fun _ : PyStr => true)
        (final_path_of (pys "C") (pyStrip (pys "a.png")) (pys "My: App?")) = true
    ∧ (browse_icon (some 0) (fun _ : Nat => [7]) (fun _ => true) (pys "C")
        (.obj [(pys "posterPath", .str (pys "a.png")),
               (pys "name", .str (pys "My: App?"))])
      = .ok ⟨.obj (setKV [(pys "posterPath", Json.str (pys "a.png")),
               (pys "name", Json.str (pys "My: App?"))] (pys "posterPath")
               (.str (final_path_of (pys "C") (pyStrip (pys "a.png")) (pys "My: App?")))),
             [(final_path_of (pys "C") (pyStrip (pys "a.png")) (pys "My: App?"), [7])]⟩) :=
  ⟨rfl, rfl, rfl,
    (browse_icon_target_derivation 0 (fun _ => [7]) (fun _ => true) (pys "C")
      [(pys "posterPath", Json.str (pys "a.png")),
       (pys "name", Json.str (pys "My: App?"))]
      (pys "a.png") (pys "My: App?") rfl rfl rfl).1⟩

/-! Claim C6. -/

/-- C6 counterexample: a record whose posterPath is the single dot.
The Windows splitext treats a basename consisting only of dots as
having no extension, so the first call derives target ..bmp while the
second call, starting from posterPath ..bmp (a basename whose stem is
all dots), derives ..bmp.bmp: the two successive calls store different
posterPath values and write different target files. -/
theorem browse_icon_idempotence_cex :
    browse_icon (some 0) (fun _ : Nat => [7]) (fun _ => true) (pys "C")
        (.obj [(pys "posterPath", .str (pys ".")), (pys "name", .str (pys "x"))])
      = .ok ⟨.obj [(pys "posterPath", .str (pys "..bmp")),
                   (pys "name", .str (pys "x"))],
             [(pys "..bmp", [7])]⟩
    ∧ browse_icon (some 0) (fun _ : Nat => [7]) (fun _ => true) (pys "C")
        (.obj [(pys "posterPath", .str (pys "..bmp")),
               (pys "name", .str (pys "x"))])
      = .ok ⟨.obj [(pys "posterPath", .str (pys "..bmp.bmp")),
                   (pys "name", .str (pys "x"))],
             [(pys "..bmp.bmp", [7])]⟩
    ∧ pys "..bmp" ≠ pys "..bmp.bmp" := by
  refine ⟨by rfl, by rfl, by decide⟩

/-- C6 amended: calling materialize twice in succession with the same
source is idempotent — same posterPath stored, same payload written to
the same target — provided the target derived by the first call is
whitespace-trimmed and splitext recognizes .bmp as its extension (true
for every ordinary path; it fails only for degenerate initial
posterPaths such as a basename consisting solely of dots). -/
theorem browse_icon_idempotent_when_ext_stable {I : Type} (img : I)
    (encodeBMP : I → List Nat) (writeOk : PyStr → Bool)
    (icon_cache_folder : PyStr) (kvs : List (PyStr × Json)) (p0 n0 : PyStr)
    (hp : getKV kvs (pys "posterPath") (.str []) = .str p0)
    (hn : getKV kvs (pys "name") (.str []) = .str n0)
    (hw : writeOk (final_path_of icon_cache_folder (pyStrip p0) n0) = true)
    (htrim : pyStrip (final_path_of icon_cache_folder (pyStrip p0) n0)
      = final_path_of icon_cache_folder (pyStrip p0) n0)
    (hext : (os_path_splitext (final_path_of icon_cache_folder (pyStrip p0) n0)).2
      = pys ".bmp") :
    browse_icon (some img) encodeBMP writeOk icon_cache_folder (.obj kvs)
      = .ok ⟨.obj (setKV kvs (pys "posterPath")
          (.str (final_path_of icon_cache_folder (pyStrip p0) n0))),
        [(final_path_of icon_cache_folder (pyStrip p0) n0, encodeBMP img)]⟩
    ∧ browse_icon (some img) encodeBMP writeOk icon_cache_folder
        (.obj (setKV kvs (pys "posterPath")
          (.str (final_path_of icon_cache_folder (pyStrip p0) n0))))
      = .ok ⟨.obj (setKV (setKV kvs (pys "posterPath")
            (.str (final_path_of icon_cache_folder (pyStrip p0) n0)))
            (pys "posterPath")
            (.str (final_path_of icon_cache_folder (pyStrip p0) n0))),
        [(final_path_of icon_cache_folder (pyStrip p0) n0, encodeBMP img)]⟩ := by
  set T := final_path_of icon_cache_folder (pyStrip p0) n0 with hT
  have hT_ne : T ≠ [] := by
    intro h0
    rw [h0] at hext
    exact absurd hext (by decide)
  have hp2 : getKV (setKV kvs (pys "posterPath") (.str T))
      (pys "posterPath") (.str []) = .str T := by
    unfold getKV
    rw [lookupKV_setKV_self]
  have hn2 : getKV (setKV kvs (pys "posterPath") (.str T))
      (pys "name") (.str []) = .str n0 := by
    unfold getKV at hn ⊢
    rw [lookupKV_setKV_ne _ _ _ _ (by decide)]
    exact hn
  have hfp2 : final_path_of icon_cache_folder (pyStrip T) n0 = T := by
    rw [htrim]
    unfold final_path_of
    rw [if_pos hT_ne, ← hext]
    exact os_path_splitext_append T
  constructor
  · simp [browse_icon, hp, hn, hw]
  · simp [browse_icon, hp2, hn2, hfp2, hw]

/-- Witness for the amended C6 statement: posterPath a.png derives
target a.bmp on the first call, and the second call derives a.bmp
again, storing the same posterPath and writing the same payload. -/
theorem browse_icon_idempotent_when_ext_stable_witness :
    getKV [(pys "posterPath", Json.str (pys "a.png")),
           (pys "name", Json.str (pys "x"))] (pys "posterPath") (.str [])
      = .str (pys "a.png")
    ∧ getKV [(pys "posterPath", Json.str (pys "a.png")),
             (pys "name", Json.str (pys "x"))] (pys "name") (.str [])
      = .str (pys "x")
    ∧ (fun _ : PyStr => true)
        (final_path_of (pys "C") (pyStrip (pys "a.png")) (pys "x")) = true
    ∧ pyStrip (final_path_of (pys "C") (pyStrip (pys "a.png")) (pys "x"))
        = final_path_of (pys "C") (pyStrip (pys "a.png")) (pys "x")
    ∧ (os_path_splitext (final_path_of (pys "C") (pyStrip (pys "a.png")) (pys "x"))).2
        = pys ".bmp"
    ∧ (browse_icon (some 0) (fun _ : Nat => [7]) (fun _ => true) (pys "C")
        (.obj [(pys "posterPath", .str (pys "a.png")),
               (pys "name", .str (pys "x"))])
      = .ok ⟨.obj (setKV [(pys "posterPath", Json.str (pys "a.png")),
          (pys "name", Json.str (pys "x"))] (pys "posterPath")
          (.str (final_path_of (pys "C") (pyStrip (pys "a.png")) (pys "x")))),
        [(final_path_of (pys "C") (pyStrip (pys "a.png")) (pys "x"), [7])]⟩
      ∧ browse_icon (some 0) (fun _ : Nat => [7]) (fun _ => true) (pys "C")
          (.obj (setKV [(pys "posterPath", Json.str (pys "a.png")),
            (pys "name", Json.str (pys "x"))] (pys "posterPath")
            (.str (final_path_of (pys "C") (pyStrip (pys "a.png")) (pys "x")))))
        = .ok ⟨.obj (setKV (setKV [(pys "posterPath", Json.str (pys "a.png")),
              (pys "name", Json.str (pys "x"))] (pys "posterPath")
              (.str (final_path_of (pys "C") (pyStrip (pys "a.png")) (pys "x"))))
              (pys "posterPath")
              (.str (final_path_of (pys "C") (pyStrip (pys "a.png")) (pys "x")))),
          [(final_path_of (pys "C") (pyStrip (pys "a.png")) (pys "x"), [7])]⟩) :=
  ⟨rfl, rfl, rfl, by rfl, by rfl,
    browse_icon_idempotent_when_ext_stable 0 (fun _ => [7]) (fun _ => true)
      (pys "C") [(pys "posterPath", Json.str (pys "a.png")),
                 (pys "name", Json.str (pys "x"))]
      (pys "a.png") (pys "x") rfl rfl rfl (by rfl) (by rfl)⟩

/-! Claim C7. -/

/-- Record after the three field writes of `save_changes`. -/
def updated_fields (pkvs : List (PyStr × Json)) (nm ap pp : PyStr) :
    List (PyStr × Json) :=
  setKV (setKV (setKV pkvs (pys "name") (.str nm))
    (pys "applicationPath") (.str ap)) (pys "posterPath") (.str pp)

/-- C7: save_changes writes exactly the three fields name,
applicationPath and posterPath into the referenced record in place;
every other key of that record, every other record of the list, and
every other key of the owning document (at the top level and inside the
applications wrapper) are unchanged. -/
theorem save_changes_doc_frame (kvs skvs pkvs : List (PyStr × Json))
    (l : List Json) (i : Nat) (nm ap pp : PyStr)
    (h1 : lookupKV kvs (pys "applications") = some (.obj skvs))
    (h2 : lookupKV skvs (pys "applications") = some (.arr l))
    (h3 : l[i]? = some (.obj pkvs)) :
    save_changes_doc (.obj kvs) i nm ap pp
      = .ok (.obj (setKV kvs (pys "applications")
          (.obj (setKV skvs (pys "applications")
            (.arr (l.set i (.obj (updated_fields pkvs nm ap pp))))))))
    ∧ lookupKV (updated_fields pkvs nm ap pp) (pys "name") = some (.str nm)
    ∧ lookupKV (updated_fields pkvs nm ap pp) (pys "applicationPath")
        = some (.str ap)
    ∧ lookupKV (updated_fields pkvs nm ap pp) (pys "posterPath")
        = some (.str pp)
    ∧ (∀ k : PyStr, k ≠ pys "name" → k ≠ pys "applicationPath" →
        k ≠ pys "posterPath" →
        lookupKV (updated_fields pkvs nm ap pp) k = lookupKV pkvs k)
    ∧ (∀ j : Nat, j ≠ i →
        (l.set i (.obj (updated_fields pkvs nm ap pp)))[j]? = l[j]?)
    ∧ (∀ k : PyStr, k ≠ pys "applications" →
        lookupKV (setKV kvs (pys "applications")
          (.obj (setKV skvs (pys "applications")
            (.arr (l.set i (.obj (updated_fields pkvs nm ap pp))))))) k
          = lookupKV kvs k)
    ∧ (∀ k : PyStr, k ≠ pys "applications" →
        lookupKV (setKV skvs (pys "applications")
          (.arr (l.set i (.obj (updated_fields pkvs nm ap pp))))) k
          = lookupKV skvs k) := by
  refine ⟨?_, ?_, ?_, ?_, ?_, ?_, ?_, ?_⟩
  · simp only [save_changes_doc, h1, h2, h3, update_record, updated_fields]
  · unfold updated_fields
    rw [lookupKV_setKV_ne _ _ _ _ (by decide),
      lookupKV_setKV_ne _ _ _ _ (by decide), lookupKV_setKV_self]
  · unfold updated_fields
    rw [lookupKV_setKV_ne _ _ _ _ (by decide), lookupKV_setKV_self]
  · unfold updated_fields
    rw [lookupKV_setKV_self]
  · intro k hk1 hk2 hk3
    unfold updated_fields
    rw [lookupKV_setKV_ne _ _ _ _ hk3, lookupKV_setKV_ne _ _ _ _ hk2,
      lookupKV_setKV_ne _ _ _ _ hk1]
  · intro j hj
    exact List.getElem?_set_ne (Ne.symm hj)
  · intro k hk
    rw [lookupKV_setKV_ne _ _ _ _ hk]
  · intro k hk
    rw [lookupKV_setKV_ne _ _ _ _ hk]

/-- Witness for C7 on a concrete document whose record carries an
opaque passenger key and sits beside a second record. -/
theorem save_changes_doc_frame_witness :
    lookupKV [(pys "x", Json.num 5),
        (pys "applications", Json.obj [(pys "applications",
          Json.arr [.obj [(pys "name", .str (pys "old")), (pys "extra", .num 3)],
                    .num 11])])]
        (pys "applications")
      = some (.obj [(pys "applications",
          .arr [.obj [(pys "name", .str (pys "old")), (pys "extra", .num 3)],
                .num 11])])
    ∧ lookupKV [(pys "applications",
          Json.arr [.obj [(pys "name", .str (pys "old")), (pys "extra", .num 3)],
                    .num 11])] (pys "applications")
      = some (.arr [.obj [(pys "name", .str (pys "old")), (pys "extra", .num 3)],
                    .num 11])
    ∧ ([Json.obj [(pys "name", .str (pys "old")), (pys "extra", .num 3)],
        Json.num 11][0]?
      = some (.obj [(pys "name", .str (pys "old")), (pys "extra", .num 3)]))
    ∧ save_changes_doc
        (.obj [(pys "x", .num 5),
          (pys "applications", .obj [(pys "applications",
            .arr [.obj [(pys "name", .str (pys "old")), (pys "extra", .num 3)],
                  .num 11])])])
        0 (pys "new") (pys "p") (pys "q")
      = .ok (.obj (setKV [(pys "x", Json.num 5),
          (pys "applications", Json.obj [(pys "applications",
            Json.arr [.obj [(pys "name", .str (pys "old")), (pys "extra", .num 3)],
                      .num 11])])]
          (pys "applications")
          (.obj (setKV [(pys "applications",
              Json.arr [.obj [(pys "name", .str (pys "old")), (pys "extra", .num 3)],
                        .num 11])]
            (pys "applications")
            (.arr ([Json.obj [(pys "name", .str (pys "old")), (pys "extra", .num 3)],
                    Json.num 11].set 0
              (.obj (updated_fields [(pys "name", Json.str (pys "old")),
                (pys "extra", Json.num 3)] (pys "new") (pys "p") (pys "q"))))))))) :=
  ⟨rfl, rfl, rfl,
    (save_changes_doc_frame
      [(pys "x", Json.num 5),
       (pys "applications", Json.obj [(pys "applications",
         Json.arr [.obj [(pys "name", .str (pys "old")), (pys "extra", .num 3)],
                   .num 11])])]
      [(pys "applications",
        Json.arr [.obj [(pys "name", .str (pys "old")), (pys "extra", .num 3)],
                  .num 11])]
      [(pys "name", Json.str (pys "old")), (pys "extra", Json.num 3)]
      [Json.obj [(pys "name", .str (pys "old")), (pys "extra", .num 3)], Json.num 11]
      0 (pys "new") (pys "p") (pys "q") rfl rfl rfl).1⟩
